import Mathlib

/-!
Verification of the NebulaDB storage engine and write-ahead log.

This file is a shallow embedding, in Lean 4, of the core of the NebulaDB
storage engine: the block codec (`crates/storage/src/block.rs`,
`crates/storage/src/lib.rs`), the block manager
(`crates/storage/src/manager.rs`), the collection layer
(`crates/storage/src/collection.rs`) and the write-ahead log
(`crates/wal/src/entry.rs`, `log.rs`, `manager.rs`).

Modelling conventions:
* Machine integers (`u8`, `u16`, `u32`, `u64`, `usize`) are modelled as `Nat`;
  wherever the Rust code truncates (an `as u16` / `as u32` cast, or
  `wrapping_add`), the model applies the corresponding `% 2^w` explicitly.
* Byte buffers are `List Nat`.
* Files are modelled by a `Bool` existence flag plus their contents as a byte
  list.  A `seek` followed by `write_all` is `writeAt`: it zero-fills any gap
  beyond the end of the file, like a POSIX sparse write.
* `SystemTime::now()` / `Instant::now()` are nondeterministic inputs; every
  operation that stamps a time takes the stamp as an explicit argument.
* The Rust `while` loops advance their cursor by at least one byte per
  iteration and hence terminate; they are embedded as structural recursion on
  an explicit fuel argument that is initialised, at each call site, to a bound
  (`length + 1`) that the loop can never exhaust, so the embedded functions
  compute by `decide`/`rfl`.
-/

set_option maxRecDepth 100000

namespace NebulaDB


/-! ## Little-endian byte encoding -/

/-- Little-endian encoding of `n` on `k` bytes (the low `k` bytes of `n`,
as produced by `to_le_bytes` after an `as`-cast to a `k`-byte integer). -/
def toLE : Nat → Nat → List Nat
  | 0, _ => []
  | k + 1, n => n % 256 :: toLE k (n / 256)

/-- Little-endian decoding of a byte list, as done by `from_le_bytes`. -/
def fromLE (l : List Nat) : Nat := l.foldr (fun b acc => b + 256 * acc) 0

@[simp] theorem fromLE_singleton (b : Nat) : fromLE [b] = b := by
  simp [fromLE]

/-! ## Buffer slicing

`extract l s n` models reading `n` bytes of buffer `l` starting at offset `s`
(truncated at the end of the buffer), i.e. the Rust slice `l[s .. s + n]`
clipped to the buffer, or a `read` of at most `n` bytes at offset `s`. -/

def extract (l : List Nat) (s n : Nat) : List Nat := (l.drop s).take n

/-! ## Block format (`crates/storage/src/lib.rs`) -/

/-- Compression algorithm codes (enum `CompressionType`). -/
inductive CompressionType where
  | None
  | Snappy
  | Zstd
  | Lz4
  deriving DecidableEq, Repr

/-- The discriminant of the Rust enum, as written by `as u8`. -/
def CompressionType.toCode : CompressionType → Nat
  | .None => 0
  | .Snappy => 1
  | .Zstd => 2
  | .Lz4 => 3

/-- Decoding of a compression byte (the `match bytes[5]` in
`Block::from_bytes`). -/
def CompressionType.ofCode : Nat → Except String CompressionType
  | 0 => .ok .None
  | 1 => .ok .Snappy
  | 2 => .ok .Zstd
  | 3 => .ok .Lz4
  | _ => .error "Invalid compression type"

@[simp] theorem CompressionType.ofCode_toCode (c : CompressionType) :
    CompressionType.ofCode c.toCode = .ok c := by
  cases c <;> rfl

/-- Header of a data block (struct `BlockHeader`). -/
structure BlockHeader where
  magic : List Nat
  version : Nat
  compression : CompressionType
  doc_count : Nat
  uncompressed_size : Nat
  compressed_size : Nat
  created_at : Nat
  deriving DecidableEq, Repr

/-- `BlockHeader::SIZE = 4 + 1 + 1 + 4 + 8 + 8 + 8`. -/
def BlockHeader.SIZE : Nat := 4 + 1 + 1 + 4 + 8 + 8 + 8

/-- `BlockHeader::MAGIC`, the bytes of "NBLD". -/
def BlockHeader.MAGIC : List Nat := [0x4E, 0x42, 0x4C, 0x44]

/-- `BlockHeader::VERSION`. -/
def BlockHeader.VERSION : Nat := 1

/-- `BlockHeader::new` (the `created_at` stamp, taken from the wall clock in
the source, is an explicit argument). -/
def BlockHeader.new (compression : CompressionType) (doc_count uncompressed_size compressed_size : Nat)
    (created_at : Nat) : BlockHeader :=
  { magic := BlockHeader.MAGIC
    version := BlockHeader.VERSION
    compression := compression
    doc_count := doc_count
    uncompressed_size := uncompressed_size
    compressed_size := compressed_size
    created_at := created_at }

/-- Footer of a data block (struct `BlockFooter`). -/
structure BlockFooter where
  checksum : Nat
  magic : List Nat
  deriving DecidableEq, Repr

/-- `BlockFooter::SIZE = 4 + 4`. -/
def BlockFooter.SIZE : Nat := 4 + 4

/-- `BlockFooter::new`. -/
def BlockFooter.new (checksum : Nat) : BlockFooter :=
  { checksum := checksum, magic := BlockHeader.MAGIC }

/-- A document storage block (struct `Block`). -/
structure Block where
  header : BlockHeader
  data : List Nat
  footer : BlockFooter
  deriving DecidableEq, Repr

/-- `Block::new`: a fresh empty block with a temporary zero checksum. -/
def Block.new (compression : CompressionType) (created_at : Nat) : Block :=
  { header := BlockHeader.new compression 0 0 0 created_at
    data := []
    footer := BlockFooter.new 0 }

/-- `Block::size`: header size + payload length + footer size. -/
def Block.size (b : Block) : Nat :=
  BlockHeader.SIZE + b.data.length + BlockFooter.SIZE

/-! ## Document entries and block operations (`crates/storage/src/block.rs`) -/

/-- A document entry (struct `DocumentEntry`, without the in-memory `offset`
bookkeeping field, which never reaches the wire format). -/
structure DocumentEntry where
  id : List Nat
  data : List Nat
  deriving DecidableEq, Repr

/-- `DocumentEntry::size`. -/
def DocumentEntry.size (e : DocumentEntry) : Nat :=
  2 + e.id.length + 4 + e.data.length

/-- `DocumentEntry::to_bytes`: `[id_len: u16 LE][id][data_len: u32 LE][data]`.
The `as u16` / `as u32` casts of the Rust code truncate, which `toLE` models. -/
def DocumentEntry.to_bytes (e : DocumentEntry) : List Nat :=
  toLE 2 e.id.length ++ e.id ++ toLE 4 e.data.length ++ e.data

/-- Wire encoding of an `(id, value)` pair, `DocumentEntry::to_bytes` applied
to `DocumentEntry::new id data`. -/
def encEntry (id data : List Nat) : List Nat := DocumentEntry.to_bytes ⟨id, data⟩

/-- 32-bit wrapping addition (`u32::wrapping_add`). -/
def wadd (a b : Nat) : Nat := (a + b) % 2 ^ 32

/-- `Block::compute_checksum`: the wrapping 32-bit byte-sum fold over header
fields and payload. -/
def Block.compute_checksum (b : Block) : Nat :=
  let s1 := wadd 0 (b.header.magic.foldl (fun acc x => wadd acc x) 0)
  let s2 := wadd s1 b.header.version
  let s3 := wadd s2 b.header.compression.toCode
  let s4 := wadd s3 b.header.doc_count
  let s5 := wadd s4 (b.header.uncompressed_size % 2 ^ 32)
  let s6 := wadd s5 (b.header.uncompressed_size / 2 ^ 32)
  let s7 := wadd s6 (b.header.compressed_size % 2 ^ 32)
  let s8 := wadd s7 (b.header.compressed_size / 2 ^ 32)
  let s9 := wadd s8 (b.header.created_at % 2 ^ 32)
  let s10 := wadd s9 (b.header.created_at / 2 ^ 32)
  wadd s10 (b.data.foldl (fun acc x => wadd acc x) 0)

/-- `Block::add_document`: append the entry bytes to the payload, bump
`doc_count` and `uncompressed_size`, then recompute the footer checksum. -/
def Block.add_document (b : Block) (doc : DocumentEntry) : Block :=
  let doc_bytes := doc.to_bytes
  let b' : Block :=
    { b with
      data := b.data ++ doc_bytes
      header :=
        { b.header with
          doc_count := b.header.doc_count + 1
          uncompressed_size := b.header.uncompressed_size + doc_bytes.length } }
  { b' with footer := { b'.footer with checksum := b'.compute_checksum } }

/-- `Block::to_bytes`: header fields in order, payload, checksum, footer
magic. -/
def Block.to_bytes (b : Block) : List Nat :=
  b.header.magic ++ [b.header.version] ++ [b.header.compression.toCode] ++
    toLE 4 b.header.doc_count ++ toLE 8 b.header.uncompressed_size ++
    toLE 8 b.header.compressed_size ++ toLE 8 b.header.created_at ++
    b.data ++ toLE 4 b.footer.checksum ++ b.footer.magic

/-- `Block::from_bytes`: length and magic checks, field parsing, payload as
`bytes[34 .. len - 8]`, footer checksum and magic.  The checksum is parsed but
never verified, exactly as in the source. -/
def Block.from_bytes (bytes : List Nat) : Except String Block :=
  if bytes.length < BlockHeader.SIZE + BlockFooter.SIZE then
    .error "Invalid block: too short"
  else if extract bytes 0 4 ≠ BlockHeader.MAGIC then
    .error "Invalid block: wrong magic number"
  else
    match CompressionType.ofCode (fromLE (extract bytes 5 1)) with
    | .error e => .error e
    | .ok compression =>
      if extract bytes (bytes.length - BlockFooter.SIZE + 4) 4 ≠ BlockHeader.MAGIC then
        .error "Invalid block: wrong footer magic number"
      else
        .ok
          { header :=
              { magic := extract bytes 0 4
                version := fromLE (extract bytes 4 1)
                compression := compression
                doc_count := fromLE (extract bytes 6 4)
                uncompressed_size := fromLE (extract bytes 10 8)
                compressed_size := fromLE (extract bytes 18 8)
                created_at := fromLE (extract bytes 26 8) }
            data := extract bytes BlockHeader.SIZE (bytes.length - BlockFooter.SIZE - BlockHeader.SIZE)
            footer :=
              { checksum := fromLE (extract bytes (bytes.length - BlockFooter.SIZE) 4)
                magic := extract bytes (bytes.length - BlockFooter.SIZE + 4) 4 } }

/-- Structural bounds that the Rust integer types impose on a `Block` value:
each field fits its machine width (`u8`, `u32`, `u64`), and both magics are 4
bytes.  Any value of the Rust struct satisfies these by typing. -/
structure Block.WellTyped (b : Block) : Prop where
  version_lt : b.header.version < 2 ^ 8
  doc_count_lt : b.header.doc_count < 2 ^ 32
  uncompressed_lt : b.header.uncompressed_size < 2 ^ 64
  compressed_lt : b.header.compressed_size < 2 ^ 64
  created_lt : b.header.created_at < 2 ^ 64
  checksum_lt : b.footer.checksum < 2 ^ 32

/-! ## File model

A collection's `blocks.bin` file is an existence flag plus its byte contents.
`writeAt` models `seek(SeekFrom::Start pos)` followed by `write_all bytes`:
bytes before `pos` are kept, a gap beyond the current end of file reads as
zeros (POSIX sparse-write semantics), the written range is replaced, and the
tail beyond it is kept. -/

def writeAt (file : List Nat) (pos : Nat) (bytes : List Nat) : List Nat :=
  file.take pos ++ List.replicate (pos - file.length) 0 ++ bytes ++
    file.drop (pos + bytes.length)

/-- A sequence of `write_all` calls with the cursor advancing after each. -/
def writeSeq (file : List Nat) (pos : Nat) : List (List Nat) → List Nat
  | [] => file
  | p :: ps => writeSeq (writeAt file pos p) (pos + p.length) ps

/-! ## Block manager (`crates/storage/src/manager.rs`) -/

/-- Storage engine configuration (struct `StorageConfig`, without the unused
`base` field). -/
structure StorageConfig where
  block_size : Nat
  compression : CompressionType
  flush_threshold : Nat
  deriving DecidableEq, Repr

/-- `StorageConfig::default()`: 4 MiB blocks, zstd, flush threshold 1000. -/
def StorageConfig.default : StorageConfig :=
  { block_size := 4 * 1024 * 1024, compression := .Zstd, flush_threshold := 1000 }

/-- State of a `BlockManager` together with its `blocks.bin` file.  The
`name`/`path` fields of the Rust struct only name the file and are dropped;
the file itself is inlined as an existence flag plus contents. -/
structure BMState where
  config : StorageConfig
  active_block : Option Block
  current_block_idx : Nat
  fileExists : Bool
  fileContent : List Nat
  deriving DecidableEq, Repr

/-- `BlockManager::new`. -/
def BMState.new (config : StorageConfig) : BMState :=
  { config := config
    active_block := none
    current_block_idx := 0
    fileExists := false
    fileContent := [] }

/-- The tombstone test used by the scans: the id starts and ends with the
underscore byte (`entry_id.starts_with(b"_") && entry_id.ends_with(b"_")`). -/
def isTombstoneId (l : List Nat) : Bool :=
  (l.head? == some 95) && (l.getLast? == some 95)

/-- The byte filter of `extract_ids_from_raw_block`:
`b.is_ascii_alphanumeric() || b.is_ascii_punctuation() || b.is_ascii_whitespace()`. -/
def validIdByte (b : Nat) : Bool :=
  ((48 ≤ b && b ≤ 57) || (65 ≤ b && b ≤ 90) || (97 ≤ b && b ≤ 122)) ||
    ((33 ≤ b && b ≤ 47) || (58 ≤ b && b ≤ 64) || (91 ≤ b && b ≤ 96) || (123 ≤ b && b ≤ 126)) ||
    (b == 32 || b == 9 || b == 10 || b == 12 || b == 13)

namespace BlockManager

/-- `BlockManager::find_next_block_idx`: file size divided by the size of a
fresh empty block (`Block::new(compression).size()`, i.e. 42 bytes). -/
def find_next_block_idx (st : BMState) : Nat :=
  if st.fileExists = false then 0
  else if st.fileContent.length = 0 then 0
  else st.fileContent.length / (Block.new st.config.compression 0).size

/-- `BlockManager::ensure_active_block` (`now` is the wall-clock stamp for
the fresh block's `created_at`). -/
def ensure_active_block (st : BMState) (now : Nat) : BMState :=
  if st.active_block = none then
    { st with
      current_block_idx :=
        if st.fileExists then find_next_block_idx st else st.current_block_idx
      active_block := some (Block.new st.config.compression now) }
  else st

/-- `BlockManager::flush`: if an active block exists (empty or not), write its
header, payload and footer at offset `current_block_idx * block.size()` — the
size of the block being flushed, payload included — then bump the index and
install a fresh empty block.  With no active block it does nothing. -/
def flush (st : BMState) (now : Nat) : BMState :=
  match st.active_block with
  | none => st
  | some block =>
    { st with
      fileExists := true
      fileContent :=
        writeSeq st.fileContent (st.current_block_idx * block.size)
          [block.header.magic, [block.header.version], [block.header.compression.toCode],
            toLE 4 block.header.doc_count, toLE 8 block.header.uncompressed_size,
            toLE 8 block.header.compressed_size, toLE 8 block.header.created_at,
            block.data, toLE 4 block.footer.checksum, block.footer.magic]
      current_block_idx := st.current_block_idx + 1
      active_block := some (Block.new st.config.compression now) }

/-- `BlockManager::flush_if_needed`: flush when the active block's serialized
size reaches `flush_threshold`. -/
def flush_if_needed (st : BMState) (now : Nat) : BMState :=
  match st.active_block with
  | none => st
  | some block =>
    if block.size ≥ st.config.flush_threshold then flush st now else st

/-- `BlockManager::insert`: ensure an active block, append the document entry
to it, then flush if past the threshold.  The source performs no validation of
`id` or `data` whatsoever and always returns `Ok`. -/
def insert (st : BMState) (now : Nat) (id data : List Nat) : BMState :=
  let st1 := ensure_active_block st now
  let st2 :=
    match st1.active_block with
    | some block => { st1 with active_block := some (block.add_document ⟨id, data⟩) }
    | none => st1
  flush_if_needed st2 now

/-- The body of the `while offset < block.data.len()` loop of
`BlockManager::search_block_for_document`.  The Rust loop advances `offset` by
at least 6 bytes per iteration; `fuel` (initialised to `data.length + 1`, which
the loop can never exhaust) makes the recursion structural. -/
def searchLoop (data docId : List Nat) : Nat → Nat → Option (List Nat)
  | 0, _ => none
  | fuel + 1, offset =>
    if offset < data.length then
      if offset + 2 > data.length then none
      else
        if offset + 2 + fromLE (extract data offset 2) > data.length then none
        else
          if extract data (offset + 2) (fromLE (extract data offset 2)) = docId then
            if offset + 2 + fromLE (extract data offset 2) + 4 > data.length then none
            else
              if offset + 2 + fromLE (extract data offset 2) + 4 +
                  fromLE (extract data (offset + 2 + fromLE (extract data offset 2)) 4) >
                  data.length then none
              else
                some (extract data (offset + 2 + fromLE (extract data offset 2) + 4)
                  (fromLE (extract data (offset + 2 + fromLE (extract data offset 2)) 4)))
          else
            if offset + 2 + fromLE (extract data offset 2) + 4 > data.length then none
            else
              searchLoop data docId fuel
                (offset + 2 + fromLE (extract data offset 2) + 4 +
                  fromLE (extract data (offset + 2 + fromLE (extract data offset 2)) 4))
    else none

/-- `BlockManager::search_block_for_document`: linear scan of a block's
payload for the first entry whose id byte-equals `docId`. -/
def search_block_for_document (block : Block) (docId : List Nat) : Option (List Nat) :=
  if block.data = [] then none
  else searchLoop block.data docId (block.data.length + 1) 0

/-- The `while block_idx > 0` slot loop of `BlockManager::find_document`:
`blockSize` is the size of the empty mock block (42 bytes), a short or
undecodable slot is skipped, and the scan runs from the newest slot down. -/
def findLoop (content docId : List Nat) (blockSize : Nat) : Nat → Option (List Nat)
  | 0 => none
  | i + 1 =>
    if i * blockSize ≥ content.length then findLoop content docId blockSize i
    else
      if (extract content (i * blockSize) blockSize).length < BlockHeader.SIZE then
        findLoop content docId blockSize i
      else
        match Block.from_bytes (extract content (i * blockSize) blockSize) with
        | .error _ => findLoop content docId blockSize i
        | .ok block =>
          match search_block_for_document block docId with
          | some d => some d
          | none => findLoop content docId blockSize i

/-- `BlockManager::find_document`: returns `None` outright when `blocks.bin`
does not exist; otherwise searches the active block first, then the persisted
slots from `current_block_idx - 1` down to `0`. -/
def find_document (st : BMState) (docId : List Nat) : Option (List Nat) :=
  if st.fileExists = false then none
  else
    match
      (match st.active_block with
       | some block => search_block_for_document block docId
       | none => none) with
    | some d => some d
    | none =>
      if st.fileContent.length = 0 then none
      else
        findLoop st.fileContent docId (Block.new st.config.compression 0).size
          st.current_block_idx

/-- The entry loop of `BlockManager::scan_block_for_document_ids`.  Note the
id is pushed (tombstones excepted) before the data-length bounds check, so a
final entry with a truncated length field still contributes its id.  Fuel as
in `searchLoop`. -/
def scanBlockLoop (data : List Nat) : Nat → Nat → List (List Nat)
  | 0, _ => []
  | fuel + 1, offset =>
    if offset < data.length then
      if offset + 2 > data.length then []
      else
        if offset + 2 + fromLE (extract data offset 2) > data.length then []
        else
          (if isTombstoneId (extract data (offset + 2) (fromLE (extract data offset 2))) then []
           else [extract data (offset + 2) (fromLE (extract data offset 2))]) ++
          (if offset + 2 + fromLE (extract data offset 2) + 4 > data.length then []
           else
             scanBlockLoop data fuel
               (offset + 2 + fromLE (extract data offset 2) + 4 +
                 fromLE (extract data (offset + 2 + fromLE (extract data offset 2)) 4)))
    else []

/-- `BlockManager::scan_block_for_document_ids` (used for the active block):
collects every non-tombstone id, with no byte-validity filtering. -/
def scan_block_for_document_ids (block : Block) : List (List Nat) :=
  if block.data = [] then []
  else scanBlockLoop block.data (block.data.length + 1) 0

/-- The entry loop of `BlockManager::extract_ids_from_raw_block` (offset
starts at `BlockHeader::SIZE`): a candidate id is emitted only when it is
non-empty, not a tombstone, and every byte passes `validIdByte`; otherwise the
scan resynchronises one byte forward.  Fuel as in `searchLoop`. -/
def extractLoop (d : List Nat) : Nat → Nat → List (List Nat)
  | 0, _ => []
  | fuel + 1, offset =>
    if offset < d.length - 6 then
      if offset + 2 > d.length then []
      else
        if fromLE (extract d offset 2) = 0 ∨ offset + 2 + fromLE (extract d offset 2) > d.length then
          extractLoop d fuel (offset + 1)
        else
          if extract d (offset + 2) (fromLE (extract d offset 2)) ≠ [] ∧
              isTombstoneId (extract d (offset + 2) (fromLE (extract d offset 2))) = false then
            if (extract d (offset + 2) (fromLE (extract d offset 2))).all validIdByte then
              extract d (offset + 2) (fromLE (extract d offset 2)) ::
                (if offset + 2 + fromLE (extract d offset 2) + 4 ≤ d.length then
                  extractLoop d fuel
                    (offset + 2 + fromLE (extract d offset 2) + 4 +
                      fromLE (extract d (offset + 2 + fromLE (extract d offset 2)) 4))
                 else extractLoop d fuel (offset + 2 + fromLE (extract d offset 2)))
            else extractLoop d fuel (offset + 1)
          else extractLoop d fuel (offset + 1)
    else []

/-- `BlockManager::extract_ids_from_raw_block`: ids extracted from a raw
buffer that starts at a block magic. -/
def extract_ids_from_raw_block (block_data : List Nat) : List (List Nat) :=
  if block_data.length < BlockHeader.SIZE then []
  else extractLoop block_data (block_data.length + 1) BlockHeader.SIZE

/-- The magic-scan loop of `BlockManager::scan_document_ids`: at every
position where the four bytes "NBLD" occur (the last four bytes of the file
are never tested, as in the source), ids are extracted from the raw suffix;
the cursor advances by 4 on a hit and by 1 otherwise.  For a file of fewer
than four bytes the Rust `file_content.len() - 4` underflows and the slice
`[position..position+4]` panics; with `Nat` subtraction the loop body is never
entered on such a file. -/
def magicLoop (content : List Nat) : Nat → Nat → List (List Nat)
  | 0, _ => []
  | fuel + 1, position =>
    if position < content.length - 4 then
      if extract content position 4 = BlockHeader.MAGIC then
        extract_ids_from_raw_block (content.drop position) ++
          magicLoop content fuel (position + 4)
      else magicLoop content fuel (position + 1)
    else []

/-- `BlockManager::scan_document_ids`: ids of the active block (tombstones
filtered, bytes unfiltered), then ids recovered from the raw block file. -/
def scan_document_ids (st : BMState) : List (List Nat) :=
  let activeIds :=
    match st.active_block with
    | some block => scan_block_for_document_ids block
    | none => []
  if st.fileExists = false then activeIds
  else if st.fileContent = [] then activeIds
  else activeIds ++ magicLoop st.fileContent (st.fileContent.length + 1) 0

end BlockManager

/-! ## Collection layer (`crates/storage/src/collection.rs`) -/

namespace Collection

/-- The tombstone id for `id`: an underscore byte before and after. -/
def tombstoneId (id : List Nat) : List Nat := 95 :: (id ++ [95])

/-- `Collection::get`: find the document, then probe for its tombstone; a
present tombstone hides the document. -/
def get (st : BMState) (id : List Nat) : Option (List Nat) :=
  match BlockManager.find_document st id with
  | none => none
  | some data =>
    match BlockManager.find_document st (tombstoneId id) with
    | some _ => none
    | none => some data

/-- `Collection::delete`: absent (per `get`) returns `false`; otherwise a
tombstone entry is inserted and the call returns `true`.  The tombstone's
payload is a JSON-ish string built from the wall clock in the source; it is
taken here as the opaque argument `tombstone_data`. -/
def delete (st : BMState) (now : Nat) (id tombstone_data : List Nat) : Bool × BMState :=
  match get st id with
  | none => (false, st)
  | some _ => (true, BlockManager.insert st now (tombstoneId id) tombstone_data)

/-- `Collection::insert` routes to `BlockManager::insert`. -/
def insert (st : BMState) (now : Nat) (id data : List Nat) : BMState :=
  BlockManager.insert st now id data

end Collection

/-! ## WAL entries (`crates/wal/src/entry.rs`) -/

/-- Entry types of the WAL (enum `EntryType`). -/
inductive EntryType where
  | Noop
  | Insert
  | Update
  | Delete
  | BeginTx
  | CommitTx
  | AbortTx
  | Checkpoint
  deriving DecidableEq, Repr

/-- The discriminant written on disk. -/
def EntryType.toByte : EntryType → Nat
  | .Noop => 0
  | .Insert => 1
  | .Update => 2
  | .Delete => 3
  | .BeginTx => 4
  | .CommitTx => 5
  | .AbortTx => 6
  | .Checkpoint => 7

/-- `EntryType::from_byte`. -/
def EntryType.from_byte : Nat → Except String EntryType
  | 0 => .ok .Noop
  | 1 => .ok .Insert
  | 2 => .ok .Update
  | 3 => .ok .Delete
  | 4 => .ok .BeginTx
  | 5 => .ok .CommitTx
  | 6 => .ok .AbortTx
  | 7 => .ok .Checkpoint
  | _ => .error "Invalid WAL entry type"

@[simp] theorem EntryType.from_byte_toByte (t : EntryType) :
    EntryType.from_byte t.toByte = .ok t := by
  cases t <;> rfl

/-- Header of a WAL entry (struct `EntryHeader`). -/
structure EntryHeader where
  magic : List Nat
  entry_type : EntryType
  collection_id : Nat
  transaction_id : Nat
  document_id : List Nat
  data_size : Nat
  checksum : Nat
  timestamp : Nat
  deriving DecidableEq, Repr

/-- `EntryHeader::FIXED_SIZE = 4 + 1 + 8 + 8 + 2 + 4 + 4 + 8`. -/
def EntryHeader.FIXED_SIZE : Nat := 4 + 1 + 8 + 8 + 2 + 4 + 4 + 8

/-- `EntryHeader::MAGIC`, the bytes of "NBWL". -/
def EntryHeader.MAGIC : List Nat := [0x4E, 0x42, 0x57, 0x4C]

/-- `EntryHeader::to_bytes`. -/
def EntryHeader.to_bytes (h : EntryHeader) : List Nat :=
  h.magic ++ [h.entry_type.toByte] ++ toLE 8 h.collection_id ++ toLE 8 h.transaction_id ++
    toLE 2 h.document_id.length ++ h.document_id ++ toLE 4 h.data_size ++
    toLE 4 h.checksum ++ toLE 8 h.timestamp

/-- `EntryHeader::from_bytes`: returns the header and the offset one past it.
The first length guard is `len < FIXED_SIZE - 2` (the doc-id length field is
discounted), the second requires the doc id plus the 16 remaining fixed bytes. -/
def EntryHeader.from_bytes (bytes : List Nat) : Except String (EntryHeader × Nat) :=
  if bytes.length < EntryHeader.FIXED_SIZE - 2 then
    .error "Invalid WAL entry header: too short"
  else if extract bytes 0 4 ≠ EntryHeader.MAGIC then
    .error "Invalid WAL entry header: wrong magic number"
  else
    match EntryType.from_byte (fromLE (extract bytes 4 1)) with
    | .error e => .error e
    | .ok entry_type =>
      if bytes.length < 23 + fromLE (extract bytes 21 2) + 16 then
        .error "Invalid WAL entry header: too short for document ID"
      else
        .ok
          ({ magic := extract bytes 0 4
             entry_type := entry_type
             collection_id := fromLE (extract bytes 5 8)
             transaction_id := fromLE (extract bytes 13 8)
             document_id := extract bytes 23 (fromLE (extract bytes 21 2))
             data_size := fromLE (extract bytes (23 + fromLE (extract bytes 21 2)) 4)
             checksum := fromLE (extract bytes (27 + fromLE (extract bytes 21 2)) 4)
             timestamp := fromLE (extract bytes (31 + fromLE (extract bytes 21 2)) 8) },
           39 + fromLE (extract bytes 21 2))

/-- A complete WAL entry (struct `WalEntry`). -/
structure WalEntry where
  header : EntryHeader
  data : List Nat
  deriving DecidableEq, Repr

/-- The byte-sum payload checksum of `WalEntry::new` (a wrapping `u32` fold). -/
def walChecksum (data : List Nat) : Nat :=
  data.foldl (fun acc b => wadd acc b) 0

/-- `WalEntry::new` (`timestamp` is the wall-clock stamp). -/
def WalEntry.new (entry_type : EntryType) (collection_id transaction_id : Nat)
    (document_id data : List Nat) (timestamp : Nat) : WalEntry :=
  { header :=
      { magic := EntryHeader.MAGIC
        entry_type := entry_type
        collection_id := collection_id
        transaction_id := transaction_id
        document_id := document_id
        data_size := data.length % 2 ^ 32
        checksum := walChecksum data
        timestamp := timestamp }
    data := data }

/-- `WalEntry::to_bytes`. -/
def WalEntry.to_bytes (e : WalEntry) : List Nat :=
  e.header.to_bytes ++ e.data

/-- `WalEntry::from_bytes`: parse the header, require `data_size` payload
bytes, verify the payload checksum, and return the entry with the number of
bytes consumed. -/
def WalEntry.from_bytes (bytes : List Nat) : Except String (WalEntry × Nat) :=
  match EntryHeader.from_bytes bytes with
  | .error e => .error e
  | .ok (header, offset) =>
    if bytes.length < offset + header.data_size then
      .error "Invalid WAL entry: data too short"
    else
      if walChecksum (extract bytes offset header.data_size) ≠ header.checksum then
        .error "Invalid WAL entry: checksum mismatch"
      else
        .ok ({ header := header, data := extract bytes offset header.data_size },
          offset + header.data_size)

/-! ## WAL log file iteration (`crates/wal/src/log.rs`) -/

/-- `WAL_HEADER_SIZE`: the 16-byte file preamble. -/
def WAL_HEADER_SIZE : Nat := 16

/-- The bytes of "NBWA". -/
def WAL_MAGIC : List Nat := [0x4E, 0x42, 0x57, 0x41]

/-- The 16-byte preamble written by `WalLog::create`:
magic, version, three reserved zero bytes, creation stamp. -/
def walPreamble (created_at : Nat) : List Nat :=
  WAL_MAGIC ++ [1] ++ [0, 0, 0] ++ toLE 8 created_at

/-- One step of `WalIterator::next` and the whole iteration, as the finite
list of items the iterator can yield to a caller that stops at the first
error:  before `end_position`, up to `buflen` bytes are read at the cursor
(the read buffer is truncated to what was read, so `buflen` shrinks as the
end of file approaches); a parsed entry is yielded with its position and the
cursor advances past it; a parse failure yields `Err` — after which the
source iterator would re-read the same position forever, so consumers
(`WalManager::recover_collection`) stop there.  Fuel as in `searchLoop` (an
entry consumes at least 39 bytes). -/
def iterLoop (content : List Nat) (endPos : Nat) : Nat → Nat → Nat → List (Except String (Nat × WalEntry))
  | 0, _, _ => []
  | fuel + 1, pos, buflen =>
    if pos ≥ endPos then []
    else
      if (extract content pos buflen).length = 0 then []
      else
        match WalEntry.from_bytes (extract content pos buflen) with
        | .ok (entry, consumed) =>
          .ok (pos, entry) :: iterLoop content endPos fuel (pos + consumed)
            (extract content pos buflen).length
        | .error e => [.error e]

/-- `WalLog::iterate` on a log opened with `WalLog::open`: the cursor starts
just past the preamble, `end_position` is the file size, and the read buffer
starts at 4096 bytes. -/
def walIterate (content : List Nat) : List (Except String (Nat × WalEntry)) :=
  iterLoop content content.length (content.length + 1) WAL_HEADER_SIZE 4096

/-! ## WAL manager recovery (`crates/wal/src/manager.rs`) -/

/-- `collection_id_from_name`: the 64-bit `h * 31 + byte` fold over the
collection name's bytes. -/
def collection_id_from_name (name : List Nat) : Nat :=
  name.foldl (fun h b => (h * 31 + b) % 2 ^ 64) 0

/-- Association-list model of the `HashMap`s used during recovery: `insert`
prepends and `lookup` takes the most recent binding. -/
def alInsert {κ α : Type} (k : κ) (v : α) (l : List (κ × α)) : List (κ × α) :=
  (k, v) :: l

/-- Lookup of the most recent binding for `k`. -/
def alLookup {κ α : Type} [DecidableEq κ] (k : κ) (l : List (κ × α)) : Option α :=
  (l.find? (fun p => p.1 = k)).map (·.2)

/-- The running state of `WalManager::recover_collection`'s entry loop:
`valid_transactions` (tx ids with a seen `BeginTx`), `completed_transactions`
(`true` on `CommitTx`, `false` on `AbortTx`) and the manager's `entry_cache`. -/
structure RecoveryState where
  valid_transactions : List (Nat × Bool)
  completed_transactions : List (Nat × Bool)
  entry_cache : List ((String × List Nat) × Nat)
  deriving DecidableEq, Repr

/-- The empty recovery state (fresh local maps, empty `entry_cache`). -/
def RecoveryState.init : RecoveryState := ⟨[], [], []⟩

/-- One iteration of the `for result in log.iterate()` loop of
`recover_collection`: an `Insert`/`Update`/`Delete` entry updates the cache
only when its `transaction_id` is 0 or the transaction is already marked
committed at this point of the scan. -/
def recoverStep (cname : String) (s : RecoveryState) (pe : Nat × WalEntry) : RecoveryState :=
  match pe.2.header.entry_type with
  | .BeginTx => { s with valid_transactions := alInsert pe.2.header.transaction_id true s.valid_transactions }
  | .CommitTx => { s with completed_transactions := alInsert pe.2.header.transaction_id true s.completed_transactions }
  | .AbortTx => { s with completed_transactions := alInsert pe.2.header.transaction_id false s.completed_transactions }
  | .Insert | .Update | .Delete =>
    if pe.2.header.transaction_id = 0 ∨
        alLookup pe.2.header.transaction_id s.completed_transactions = some true then
      { s with entry_cache := alInsert (cname, pe.2.header.document_id) pe.1 s.entry_cache }
    else s
  | _ => s

/-- The whole entry loop of `recover_collection`, over the already decoded
`(position, entry)` sequence of one collection's log. -/
def recoverEntries (cname : String) (entries : List (Nat × WalEntry)) : RecoveryState :=
  entries.foldl (recoverStep cname) RecoveryState.init

/-- `valid_transactions.keys().max().unwrap_or(&0)`: the largest tx id with a
`BeginTx`, 0 when there is none. -/
def maxTxKey (l : List (Nat × Bool)) : Nat :=
  l.foldl (fun a p => max a p.1) 0

/-- `recover_collection` distilled to its observable results: the
`entry_cache` contributions and the recovered collection's
`next_tx_id = max(valid_transactions) + 1`. -/
def recover_collection (cname : String) (entries : List (Nat × WalEntry)) :
    List ((String × List Nat) × Nat) × Nat :=
  let s := recoverEntries cname entries
  (s.entry_cache, maxTxKey s.valid_transactions + 1)

/-! ## Concrete states used by the claim witnesses and counterexamples -/

/-- A block holding the single entry `"k" ↦ "v"` (`[107] ↦ [118]`). -/
def c1Block : Block := (Block.new .None 7).add_document ⟨[107], [118]⟩

/-- A manager whose active block holds `"k" ↦ "v"` while `blocks.bin` has not
been created yet. -/
def c1State : BMState :=
  { config := StorageConfig.default
    active_block := some c1Block
    current_block_idx := 0
    fileExists := false
    fileContent := [] }

/-- The same manager after `blocks.bin` exists (still empty). -/
def c1StateB : BMState := { c1State with fileExists := true }

/-- A manager about to flush its one-entry active block into slot 1. -/
def c7State : BMState :=
  { config := StorageConfig.default
    active_block := some c1Block
    current_block_idx := 1
    fileExists := true
    fileContent := [] }

/-- A manager whose active block is empty and whose file does not exist. -/
def c8State : BMState :=
  { config := StorageConfig.default
    active_block := some (Block.new .Zstd 0)
    current_block_idx := 0
    fileExists := false
    fileContent := [] }

/-- A fresh manager (no active block, no file). -/
def c9State : BMState := BMState.new StorageConfig.default

/-! ## Claims about recovery (C4, C6) -/

/-- The outcome of the last transaction marker for `tx` in a prefix of the
log: `some true` when the most recent `CommitTx`/`AbortTx` for `tx` is a
`CommitTx`, `some false` when it is an `AbortTx`, `none` when there is
neither. -/
def lastTxMarker (entries : List (Nat × WalEntry)) (tx : Nat) : Option Bool :=
  entries.foldl
    (fun acc pe =>
      if pe.2.header.entry_type = .CommitTx ∧ pe.2.header.transaction_id = tx then some true
      else if pe.2.header.entry_type = .AbortTx ∧ pe.2.header.transaction_id = tx then some false
      else acc)
    none

/-- WAL entries used in the recovery claims. -/
def c4Begin : WalEntry := WalEntry.new .BeginTx 0 1 [] [] 0

/-- A committed-transaction marker for tx 1. -/
def c4Commit : WalEntry := WalEntry.new .CommitTx 0 1 [] [] 0

/-- A transactional insert of document "a" under tx 1. -/
def c4Ins : WalEntry := WalEntry.new .Insert 99 1 [97] [7] 0

/-- A transactional insert under tx 5 whose `BeginTx` is in some other log. -/
def c6Ins : WalEntry := WalEntry.new .Insert 99 5 [97] [7] 0

/-! ## Claim C5: iteration of a WAL file with a torn tail -/

instance exceptDecEq {ε α : Type} [DecidableEq ε] [DecidableEq α] :
    DecidableEq (Except ε α) := fun a b =>
  match a, b with
  | .error x, .error y => decidable_of_iff (x = y) (by simp)
  | .error _, .ok _ => isFalse (by simp)
  | .ok _, .error _ => isFalse (by simp)
  | .ok x, .ok y => decidable_of_iff (x = y) (by simp)

/-- A complete non-transactional insert entry (`"a" ↦ [7]`). -/
def c5Entry1 : WalEntry := WalEntry.new .Insert 1 0 [97] [7] 0

/-- A second entry whose frame will be truncated. -/
def c5Entry2 : WalEntry := WalEntry.new .Insert 1 0 [98] [9] 0

/-- A WAL file with a valid preamble, one fully framed entry, and a second
entry truncated after 10 bytes (mid-frame). -/
def c5TornFile : List Nat :=
  walPreamble 0 ++ c5Entry1.to_bytes ++ c5Entry2.to_bytes.take 10

/-- A block whose only entry has id `[104, 105, 128]` — the third byte is
outside ASCII. -/
def c10Block : Block := (Block.new .None 0).add_document ⟨[104, 105, 128], [1]⟩

/-- A manager holding that block in memory, with no `blocks.bin` yet. -/
def c10State : BMState :=
  { config := StorageConfig.default
    active_block := some c10Block
    current_block_idx := 0
    fileExists := false
    fileContent := [] }

/-- Payloads produced by `add_document` alone: a concatenation of wire
entries whose lengths fit the `u16`/`u32` length fields. -/
inductive ValidPayload : List Nat → Prop
  | nil : ValidPayload []
  | cons (id data rest : List Nat) (hid : id.length < 2 ^ 16) (hdata : data.length < 2 ^ 32)
      (h : ValidPayload rest) : ValidPayload (encEntry id data ++ rest)

/-- A collection state whose `blocks.bin` exists and whose active block
holds the visible document `"k" ↦ "v"`. -/
def c2WitState : BMState :=
  { config := StorageConfig.default
    active_block := some c1Block
    current_block_idx := 0
    fileExists := true
    fileContent := [] }

/-- A fresh collection (no `blocks.bin` yet). -/
def c2FreshState : BMState := BMState.new StorageConfig.default

/-- The same collection right after `insert("k", "v")` — the document sits in
the active block, well below the flush threshold, and no file exists. -/
def c2Inserted : BMState := BlockManager.insert c2FreshState 0 [107] [118]


/-! ## Theorems -/

@[simp] theorem toLE_length (k n : Nat) : (toLE k n).length = k := by
  induction k generalizing n with
  | zero => rfl
  | succ k ih => simp [toLE, ih]

theorem fromLE_toLE (k n : Nat) : fromLE (toLE k n) = n % 256 ^ k := by
  induction k generalizing n with
  | zero => simp [toLE, fromLE, Nat.mod_one]
  | succ k ih =>
    have h : fromLE (toLE (k + 1) n) = n % 256 + 256 * fromLE (toLE k (n / 256)) := by
      simp [toLE, fromLE]
    rw [h, ih, pow_succ', Nat.mod_mul]

theorem fromLE_toLE_of_lt {k n : Nat} (h : n < 256 ^ k) : fromLE (toLE k n) = n := by
  rw [fromLE_toLE, Nat.mod_eq_of_lt h]

@[simp] theorem extract_anchor (pre mid post : List Nat) :
    extract (pre ++ (mid ++ post)) pre.length mid.length = mid := by
  unfold extract
  rw [List.drop_left, List.take_left]

theorem extract_at {s n : Nat} (pre mid post : List Nat)
    (h1 : pre.length = s) (h2 : mid.length = n) :
    extract (pre ++ (mid ++ post)) s n = mid := by
  subst h1; subst h2; exact extract_anchor pre mid post

theorem extract_shift (pre q : List Nat) (s n : Nat) :
    extract (pre ++ q) (pre.length + s) n = extract q s n := by
  unfold extract
  rw [← List.drop_drop, List.drop_left]

theorem encEntry_length (id data : List Nat) :
    (encEntry id data).length = 2 + id.length + 4 + data.length := by
  simp [encEntry, DocumentEntry.to_bytes]
  omega

/-! ## Block codec round trip -/

theorem Block.to_bytes_split (b : Block) :
    b.to_bytes =
      b.header.magic ++ ([b.header.version] ++ ([b.header.compression.toCode] ++
        (toLE 4 b.header.doc_count ++ (toLE 8 b.header.uncompressed_size ++
        (toLE 8 b.header.compressed_size ++ (toLE 8 b.header.created_at ++
        (b.data ++ (toLE 4 b.footer.checksum ++ b.footer.magic)))))))) := by
  simp [Block.to_bytes, List.append_assoc]

theorem Block.to_bytes_length (b : Block) (hm : b.header.magic = BlockHeader.MAGIC)
    (hf : b.footer.magic = BlockHeader.MAGIC) :
    b.to_bytes.length = 42 + b.data.length := by
  simp [Block.to_bytes, hm, hf, BlockHeader.MAGIC]
  omega

theorem Block.from_bytes_to_bytes (b : Block) (hw : b.WellTyped)
    (hm : b.header.magic = BlockHeader.MAGIC) (hf : b.footer.magic = BlockHeader.MAGIC) :
    Block.from_bytes b.to_bytes = .ok b := by
  obtain ⟨⟨mg, v, c, dc, u, co, t⟩, data, ⟨ck, fm⟩⟩ := b
  obtain ⟨hv, hdc, hu, hco, ht, hck⟩ := hw
  obtain rfl : mg = BlockHeader.MAGIC := hm
  obtain rfl : fm = BlockHeader.MAGIC := hf
  have e : Block.to_bytes ⟨⟨BlockHeader.MAGIC, v, c, dc, u, co, t⟩, data, ⟨ck, BlockHeader.MAGIC⟩⟩ =
      78 :: 66 :: 76 :: 68 :: v :: c.toCode ::
        (toLE 4 dc ++ (toLE 8 u ++ (toLE 8 co ++ (toLE 8 t ++
          (data ++ (toLE 4 ck ++ [78, 66, 76, 68])))))) := by
    simp [Block.to_bytes, BlockHeader.MAGIC]
  rw [e]
  set L : List Nat :=
    78 :: 66 :: 76 :: 68 :: v :: c.toCode ::
      (toLE 4 dc ++ (toLE 8 u ++ (toLE 8 co ++ (toLE 8 t ++
        (data ++ (toLE 4 ck ++ [78, 66, 76, 68])))))) with hLdef
  have hlen : L.length = 42 + data.length := by
    simp [hLdef, toLE_length]
    omega
  have h0 : extract L 0 4 = BlockHeader.MAGIC := by
    simp [hLdef, extract, BlockHeader.MAGIC]
  have h4 : extract L 4 1 = [v] := by
    simp [hLdef, extract]
  have h5 : extract L 5 1 = [c.toCode] := by
    simp [hLdef, extract]
  have h6 : extract L 6 4 = toLE 4 dc := by
    simp [hLdef, extract, toLE]
  have h10 : extract L 10 8 = toLE 8 u := by
    simp [hLdef, extract, toLE]
  have h18 : extract L 18 8 = toLE 8 co := by
    simp [hLdef, extract, toLE]
  have h26 : extract L 26 8 = toLE 8 t := by
    simp [hLdef, extract, toLE]
  have h34 : extract L 34 data.length = data := by
    simp [hLdef, extract, toLE, List.take_left]
  have eL : L = ((78 :: 66 :: 76 :: 68 :: v :: c.toCode ::
        (toLE 4 dc ++ toLE 8 u ++ toLE 8 co ++ toLE 8 t)) ++ data) ++
        (toLE 4 ck ++ [78, 66, 76, 68]) := by
    simp [hLdef, List.append_assoc]
  have hckx : extract L (34 + data.length) 4 = toLE 4 ck := by
    rw [eL]
    refine extract_at _ _ _ ?_ (by simp [toLE_length])
    simp [toLE_length]
    omega
  have eL2 : L = (((78 :: 66 :: 76 :: 68 :: v :: c.toCode ::
        (toLE 4 dc ++ toLE 8 u ++ toLE 8 co ++ toLE 8 t)) ++ data) ++ toLE 4 ck) ++
        ([78, 66, 76, 68] ++ []) := by
    simp [hLdef, List.append_assoc]
  have hfmx : extract L (34 + data.length + 4) 4 = [78, 66, 76, 68] := by
    rw [eL2]
    refine extract_at _ _ _ ?_ (by simp)
    simp [toLE_length]
    omega
  have hdc' : dc < 256 ^ 4 := lt_of_lt_of_eq hdc (by norm_num)
  have hu' : u < 256 ^ 8 := lt_of_lt_of_eq hu (by norm_num)
  have hco' : co < 256 ^ 8 := lt_of_lt_of_eq hco (by norm_num)
  have ht' : t < 256 ^ 8 := lt_of_lt_of_eq ht (by norm_num)
  have hck' : ck < 256 ^ 4 := lt_of_lt_of_eq hck (by norm_num)
  rw [Block.from_bytes]
  rw [if_neg (by simp only [hlen, BlockHeader.SIZE, BlockFooter.SIZE]; omega)]
  rw [if_neg (by rw [h0]; simp)]
  rw [h5, fromLE_singleton, CompressionType.ofCode_toCode]
  have eA : L.length - BlockFooter.SIZE = 34 + data.length := by
    simp only [hlen, BlockFooter.SIZE]; omega
  have eB : L.length - BlockFooter.SIZE + 4 = 34 + data.length + 4 := by
    simp only [hlen, BlockFooter.SIZE]; omega
  have eC : L.length - BlockFooter.SIZE - BlockHeader.SIZE = data.length := by
    simp only [hlen, BlockFooter.SIZE, BlockHeader.SIZE]; omega
  have eD : (BlockHeader.SIZE : Nat) = 34 := by simp [BlockHeader.SIZE]
  simp only [eB, eA, eC, eD, hfmx, hckx, h0, h4, h6, h10, h18, h26, h34, fromLE_singleton]
  simp [BlockHeader.MAGIC, fromLE_toLE_of_lt hdc', fromLE_toLE_of_lt hu',
    fromLE_toLE_of_lt hco', fromLE_toLE_of_lt ht', fromLE_toLE_of_lt hck']
  exact h34

theorem writeAt_length_le (file : List Nat) (pos : Nat) (bytes : List Nat) :
    pos + bytes.length ≤ (writeAt file pos bytes).length := by
  simp [writeAt, List.length_append, List.length_take, List.length_replicate]
  omega

theorem writeAt_writeAt (file : List Nat) (pos : Nat) (a b : List Nat) :
    writeAt (writeAt file pos a) (pos + a.length) b = writeAt file pos (a ++ b) := by
  simp only [writeAt]
  have hXlen : (file.take pos ++ List.replicate (pos - file.length) 0 ++ a).length
      = pos + a.length := by
    simp [List.length_append, List.length_take]
    omega
  have h1 :
      (file.take pos ++ List.replicate (pos - file.length) 0 ++ a ++ file.drop (pos + a.length)).take
          (pos + a.length) =
        file.take pos ++ List.replicate (pos - file.length) 0 ++ a := by
    rw [show pos + a.length =
        (file.take pos ++ List.replicate (pos - file.length) 0 ++ a).length from hXlen.symm]
    exact List.take_left _ _
  have h2 : pos + a.length -
      (file.take pos ++ List.replicate (pos - file.length) 0 ++ a ++
        file.drop (pos + a.length)).length = 0 := by
    simp [List.length_append, List.length_take]
    omega
  have h3 :
      (file.take pos ++ List.replicate (pos - file.length) 0 ++ a ++ file.drop (pos + a.length)).drop
          (pos + a.length + b.length) =
        file.drop (pos + (a ++ b).length) := by
    rw [show pos + a.length + b.length =
        (file.take pos ++ List.replicate (pos - file.length) 0 ++ a).length + b.length from by
      rw [hXlen]]
    rw [← List.drop_drop, List.drop_left, List.drop_drop]
    congr 1
    simp [List.length_append]
    omega
  rw [h1, h2, h3]
  simp [List.append_assoc]

/-- Composing a sequence of cursor-advancing writes is one contiguous write. -/
theorem writeSeq_eq_writeAt (p : List Nat) (ps : List (List Nat)) (file : List Nat) (pos : Nat) :
    writeSeq file pos (p :: ps) = writeAt file pos (p :: ps).flatten := by
  induction ps generalizing p file pos with
  | nil => simp [writeSeq, writeAt]
  | cons q ps ih =>
    rw [writeSeq, ih, writeAt_writeAt]
    simp [List.flatten]

@[simp] theorem alLookup_nil {κ α : Type} [DecidableEq κ] (k : κ) :
    alLookup k ([] : List (κ × α)) = none := rfl

theorem alLookup_cons {κ α : Type} [DecidableEq κ] (k k' : κ) (v : α) (l : List (κ × α)) :
    alLookup k ((k', v) :: l) = if k' = k then some v else alLookup k l := by
  by_cases h : k' = k <;> simp [alLookup, List.find?, h]

/-- C1, counterexample.  The active block does contain the queried id (its
linear scan returns the value), yet `find_document` returns `None` because of
its `if !self.base_file_path.exists()` early return, which precedes the
active-block scan. -/
theorem claim_c1_counterexample :
    BlockManager.search_block_for_document c1Block [107] = some [118] ∧
    BlockManager.find_document c1State [107] = none := by
  decide

/-- C1 (amended): provided `blocks.bin` exists, `find_document` scans the
active in-memory block first and returns the matching entry's value,
whatever the persisted slots contain; when the file does not exist the call
returns `None` even if the active block holds the entry. -/
theorem claim_c1 (st : BMState) (block : Block) (id v : List Nat)
    (hfile : st.fileExists = true) (hactive : st.active_block = some block)
    (hsearch : BlockManager.search_block_for_document block id = some v) :
    BlockManager.find_document st id = some v := by
  simp [BlockManager.find_document, hfile, hactive, hsearch]

theorem claim_c1_witness : BlockManager.find_document c1StateB [107] = some [118] :=
  claim_c1 c1StateB c1Block [107] [118] rfl rfl (by decide)

/-- C3: for every well-formed block (header and footer magic "NBLD", any of
the four compression codes, fields within their machine widths), decoding the
encoding yields a structurally equal block: same magic bytes, version,
compression, `doc_count`, sizes, `created_at`, payload and checksum. -/
theorem claim_c3 (b : Block) (hw : b.WellTyped)
    (hm : b.header.magic = BlockHeader.MAGIC) (hf : b.footer.magic = BlockHeader.MAGIC) :
    Block.from_bytes b.to_bytes = .ok b :=
  Block.from_bytes_to_bytes b hw hm hf

theorem claim_c3_witness : Block.from_bytes (Block.to_bytes c1Block) = .ok c1Block :=
  claim_c3 c1Block
    ⟨by decide, by decide, by decide, by decide, by decide, by decide⟩
    (by decide) (by decide)

/-- C7, counterexample.  `flush` computes the write offset as
`current_block_idx * block_copy.size()` — the size of the block being
flushed, payload included — not `current_block_idx` times the fixed size of
an empty block.  For slot 1 and a one-entry block (size 50) the bytes land at
offset 50, not 42, so the file differs from what the claim prescribes. -/
theorem claim_c7_counterexample :
    (BlockManager.flush c7State 0).fileContent =
      writeAt c7State.fileContent (1 * c1Block.size) (Block.to_bytes c1Block) ∧
    c1Block.size = 50 ∧
    (Block.new c7State.config.compression 0).size = 42 ∧
    (BlockManager.flush c7State 0).fileContent ≠
      writeAt c7State.fileContent (1 * (Block.new c7State.config.compression 0).size)
        (Block.to_bytes c1Block) := by
  decide

/-- C7 (amended): a flush of an active block writes the block's serialized
bytes contiguously at offset `current_block_idx * size(flushed block)`, where
the stride is the flushed block's own size (header + actual payload + footer),
so consecutive written blocks do not share a fixed payload-independent
stride. -/
theorem claim_c7 (st : BMState) (now : Nat) (block : Block)
    (hactive : st.active_block = some block) (_hne : block.data ≠ []) :
    (BlockManager.flush st now).fileContent =
      writeAt st.fileContent (st.current_block_idx * block.size) block.to_bytes ∧
    block.size = BlockHeader.SIZE + block.data.length + BlockFooter.SIZE := by
  refine ⟨?_, rfl⟩
  simp only [BlockManager.flush, hactive]
  rw [writeSeq_eq_writeAt]
  simp [Block.to_bytes, List.flatten]

theorem claim_c7_witness :
    (BlockManager.flush c7State 0).fileContent =
      writeAt c7State.fileContent (c7State.current_block_idx * c1Block.size)
        (Block.to_bytes c1Block) ∧
    c1Block.size = BlockHeader.SIZE + c1Block.data.length + BlockFooter.SIZE :=
  claim_c7 c7State 0 c1Block rfl (by decide)

/-- C8, counterexample.  `flush` skips work only when there is *no* active
block; an active block with an empty payload is still written out: the file
comes into existence, its contents change, and the slot index advances — the
state is not left unchanged as the claim asserts. -/
theorem claim_c8_counterexample :
    (Block.new .Zstd 0).data = [] ∧
    (BlockManager.flush c8State 5).fileExists = true ∧
    c8State.fileExists = false ∧
    (BlockManager.flush c8State 5).current_block_idx = 1 ∧
    c8State.current_block_idx = 0 := by
  decide

/-- C8 (amended): `flush` is a no-op (state unchanged, no file I/O) exactly
when there is no active block; when an active block exists — even with an
empty payload — the block is written, the file exists afterwards, and
`current_block_idx` is incremented. -/
theorem claim_c8 (st : BMState) (now : Nat) :
    (st.active_block = none → BlockManager.flush st now = st) ∧
    (∀ block, st.active_block = some block →
      (BlockManager.flush st now).fileExists = true ∧
      (BlockManager.flush st now).current_block_idx = st.current_block_idx + 1) := by
  constructor
  · intro h
    simp [BlockManager.flush, h]
  · intro block h
    simp [BlockManager.flush, h]

theorem claim_c8_witness :
    (BlockManager.flush c8State 5).fileExists = true ∧
    (BlockManager.flush c8State 5).current_block_idx = c8State.current_block_idx + 1 :=
  (claim_c8 c8State 5).2 (Block.new .Zstd 0) rfl

/-- C9, counterexample.  `BlockManager::insert` performs no validation at
all: an insert with a zero-length id succeeds, appends an entry with
`id_len = 0` to the active block, and changes the state — it is not rejected
and no `ArgumentOutOfRange` error exists anywhere in the error type. -/
theorem claim_c9_counterexample :
    (BlockManager.insert c9State 0 [] [118]).active_block =
      some ((Block.new .Zstd 0).add_document ⟨[], [118]⟩) ∧
    ((Block.new .Zstd 0).add_document ⟨[], [118]⟩).data = [0, 0, 1, 0, 0, 0, 118] ∧
    BlockManager.insert c9State 0 [] [118] ≠ c9State := by
  decide

/-- C9 (amended): `insert` accepts every id and value unconditionally —
empty ids included.  It always reaches an active block, appends the entry's
wire encoding (lengths truncated modulo 2^16 / 2^32 by the `as` casts) to the
payload, and then only applies the flush-threshold check; no length check is
performed and no error is possible. -/
theorem claim_c9 (st : BMState) (now : Nat) (id data : List Nat) :
    ∃ block, (BlockManager.ensure_active_block st now).active_block = some block ∧
      BlockManager.insert st now id data =
        BlockManager.flush_if_needed
          { BlockManager.ensure_active_block st now with
            active_block := some (block.add_document ⟨id, data⟩) } now ∧
      (block.add_document ⟨id, data⟩).data = block.data ++ encEntry id data := by
  cases hactive : st.active_block with
  | none =>
    refine ⟨Block.new st.config.compression now, ?_, ?_, rfl⟩
    · simp [BlockManager.ensure_active_block, hactive]
    · simp [BlockManager.insert, BlockManager.ensure_active_block, hactive]
  | some block =>
    refine ⟨block, ?_, ?_, rfl⟩
    · simp [BlockManager.ensure_active_block, hactive]
    · simp [BlockManager.insert, BlockManager.ensure_active_block, hactive]

theorem lastTxMarker_append_single (pre : List (Nat × WalEntry)) (pe : Nat × WalEntry) (tx : Nat) :
    lastTxMarker (pre ++ [pe]) tx =
      if pe.2.header.entry_type = .CommitTx ∧ pe.2.header.transaction_id = tx then some true
      else if pe.2.header.entry_type = .AbortTx ∧ pe.2.header.transaction_id = tx then some false
      else lastTxMarker pre tx := by
  simp [lastTxMarker, List.foldl_append]

/-- During the recovery fold, the `completed_transactions` map answers
exactly the last Commit/Abort marker seen so far. -/
theorem recover_completed_eq_lastTxMarker (cname : String) (tx : Nat) :
    ∀ (entries : List (Nat × WalEntry)),
      alLookup tx (recoverEntries cname entries).completed_transactions = lastTxMarker entries tx := by
  intro entries
  induction entries using List.reverseRecOn with
  | nil => simp [recoverEntries, RecoveryState.init, lastTxMarker]
  | append_singleton pre pe ih =>
    rw [lastTxMarker_append_single]
    rw [recoverEntries, List.foldl_append] at *
    simp only [List.foldl_cons, List.foldl_nil]
    rcases pe with ⟨pos, e⟩
    rcases hty : e.header.entry_type with _ | _ | _ | _ | _ | _ | _ | _ <;>
      simp_all [recoverStep, hty, alInsert, alLookup_cons, recoverEntries] <;>
      split_ifs <;> simp_all

theorem recover_cache_of_marker (cname : String) (pre : List (Nat × WalEntry)) (pos : Nat)
    (e : WalEntry)
    (hmut : e.header.entry_type = .Insert ∨ e.header.entry_type = .Update ∨
      e.header.entry_type = .Delete) :
    (recoverEntries cname (pre ++ [(pos, e)])).entry_cache =
      if e.header.transaction_id = 0 ∨ lastTxMarker pre e.header.transaction_id = some true
      then ((cname, e.header.document_id), pos) :: (recoverEntries cname pre).entry_cache
      else (recoverEntries cname pre).entry_cache := by
  have hcm := recover_completed_eq_lastTxMarker cname e.header.transaction_id pre
  rw [recoverEntries, List.foldl_append]
  simp only [List.foldl_cons, List.foldl_nil]
  rcases hmut with hty | hty | hty <;>
    · rw [recoverStep]
      rw [hty]
      rw [← recoverEntries, hcm]
      split_ifs <;> simp_all [alInsert]

/-- C4 (amended): during recovery, an `Insert`/`Update`/`Delete` entry sets
`entry_cache[(collection, doc_id)]` to its position exactly when its
`transaction_id` is 0 or the most recent transaction marker for that id
*earlier in the log* is a `CommitTx`; otherwise the cache is unchanged by the
entry.  In particular a `CommitTx` that appears only *after* the entry (the
normal write order) does not make the entry visible — recovery is a single
forward pass. -/
theorem claim_c4 (cname : String) (pre : List (Nat × WalEntry)) (pos : Nat) (e : WalEntry)
    (hmut : e.header.entry_type = .Insert ∨ e.header.entry_type = .Update ∨
      e.header.entry_type = .Delete) :
    (recoverEntries cname (pre ++ [(pos, e)])).entry_cache =
      if e.header.transaction_id = 0 ∨ lastTxMarker pre e.header.transaction_id = some true
      then alInsert (cname, e.header.document_id) pos (recoverEntries cname pre).entry_cache
      else (recoverEntries cname pre).entry_cache :=
  recover_cache_of_marker cname pre pos e hmut

theorem claim_c4_witness :
    (recoverEntries "users" ([(16, c4Begin), (57, c4Commit)] ++ [(100, c4Ins)])).entry_cache =
      if c4Ins.header.transaction_id = 0 ∨
          lastTxMarker [(16, c4Begin), (57, c4Commit)] c4Ins.header.transaction_id = some true
      then alInsert ("users", c4Ins.header.document_id) 100
        (recoverEntries "users" [(16, c4Begin), (57, c4Commit)]).entry_cache
      else (recoverEntries "users" [(16, c4Begin), (57, c4Commit)]).entry_cache :=
  claim_c4 "users" [(16, c4Begin), (57, c4Commit)] 100 c4Ins (Or.inl (by decide))

/-- C4, counterexample.  In the log `[BeginTx 1, Insert(tx 1, "a"),
CommitTx 1]` the `CommitTx` for transaction 1 does appear in the same log,
yet after recovery the `entry_cache` is empty: the single forward pass reads
the `Insert` before the `CommitTx`, so the committed entry is dropped,
contradicting the claim that such an entry's position is cached. -/
theorem claim_c4_counterexample :
    (recover_collection "users" [(16, c4Begin), (57, c4Ins), (98, c4Commit)]).1 = [] ∧
    alLookup ("users", [97])
      (recover_collection "users" [(16, c4Begin), (57, c4Ins), (98, c4Commit)]).1 = none ∧
    (57, c4Ins) ∈ [(16, c4Begin), (57, c4Ins), (98, c4Commit)] ∧
    c4Ins.header.entry_type = .Insert ∧
    c4Ins.header.transaction_id = 1 ∧
    c4Commit.header.entry_type = .CommitTx ∧
    c4Commit.header.transaction_id = 1 := by
  decide

/-- One recovery step leaves `valid_transactions` unchanged or prepends the
entry's transaction id. -/
theorem recoverStep_vt (cname : String) (s : RecoveryState) (pe : Nat × WalEntry) :
    (recoverStep cname s pe).valid_transactions = s.valid_transactions ∨
    (recoverStep cname s pe).valid_transactions =
      (pe.2.header.transaction_id, true) :: s.valid_transactions := by
  rcases hty : pe.2.header.entry_type with _ | _ | _ | _ | _ | _ | _ | _ <;>
    simp [recoverStep, hty, alInsert]
  all_goals split_ifs <;> simp

/-- During the recovery fold, the `valid_transactions` map only grows. -/
theorem recover_vt_monotone (cname : String) :
    ∀ (l : List (Nat × WalEntry)) (s : RecoveryState) (p : Nat × Bool),
      p ∈ s.valid_transactions → p ∈ (l.foldl (recoverStep cname) s).valid_transactions := by
  intro l
  induction l with
  | nil => intro s p hp; simpa using hp
  | cons x l ih =>
    intro s p hp
    rw [List.foldl_cons]
    refine ih _ p ?_
    rcases recoverStep_vt cname s x with h | h <;> rw [h]
    · exact hp
    · exact List.mem_cons_of_mem _ hp

/-- Every `BeginTx` entry of the log lands in `valid_transactions`. -/
theorem recover_vt_mem (cname : String) :
    ∀ (l : List (Nat × WalEntry)) (s : RecoveryState) (pos : Nat) (e : WalEntry),
      (pos, e) ∈ l → e.header.entry_type = .BeginTx →
      (e.header.transaction_id, true) ∈ (l.foldl (recoverStep cname) s).valid_transactions := by
  intro l
  induction l with
  | nil => intro s pos e hm; simp at hm
  | cons x l ih =>
    intro s pos e hm hty
    rw [List.foldl_cons]
    rcases List.mem_cons.mp hm with hx | hx
    · refine recover_vt_monotone cname l _ _ ?_
      rw [← hx]
      simp [recoverStep, hty, alInsert]
    · exact ih _ pos e hx hty

theorem foldl_max_init_le (l : List (Nat × Bool)) :
    ∀ a : Nat, a ≤ l.foldl (fun x q => max x q.1) a := by
  induction l with
  | nil => intro a; simp
  | cons q l ih =>
    intro a
    rw [List.foldl_cons]
    exact le_trans (le_max_left _ _) (ih _)

theorem le_maxTxKey_foldl (l : List (Nat × Bool)) :
    ∀ (a : Nat) (p : Nat × Bool), p ∈ l → p.1 ≤ l.foldl (fun a q => max a q.1) a := by
  induction l with
  | nil => intro a p hp; simp at hp
  | cons q l ih =>
    intro a p hp
    rw [List.foldl_cons]
    rcases List.mem_cons.mp hp with h | h
    · subst h
      exact le_trans (le_max_right a p.1) (foldl_max_init_le l _)
    · exact ih _ p h

theorem le_maxTxKey (l : List (Nat × Bool)) (p : Nat × Bool) (hp : p ∈ l) :
    p.1 ≤ maxTxKey l :=
  le_maxTxKey_foldl l 0 p hp

/-- C6 (amended): after recovering a collection's log, `next_tx_id` is
strictly greater than every transaction id that appears in a `BeginTx` entry
of that log (`max(valid_transactions) + 1`); transaction ids that appear only
in transactional `Insert`/`Update`/`Delete` (or `CommitTx`/`AbortTx`) entries
— e.g. when the `BeginTx` went to a different collection's log — are not
taken into account. -/
theorem claim_c6 (cname : String) (entries : List (Nat × WalEntry)) (pos : Nat) (e : WalEntry)
    (hmem : (pos, e) ∈ entries) (hty : e.header.entry_type = .BeginTx) :
    e.header.transaction_id < (recover_collection cname entries).2 := by
  have hv : (e.header.transaction_id, true) ∈ (recoverEntries cname entries).valid_transactions :=
    recover_vt_mem cname entries RecoveryState.init pos e hmem hty
  have hle := le_maxTxKey _ _ hv
  simp only [recover_collection]
  omega

theorem claim_c6_witness :
    c4Begin.header.transaction_id < (recover_collection "users" [(16, c4Begin)]).2 :=
  claim_c6 "users" [(16, c4Begin)] 16 c4Begin (by decide) (by decide)

/-- C6, counterexample.  A log holding only `Insert(tx 5)` — its `BeginTx`
was written to another collection's log, as `begin_transaction` does — is
recovered with `next_tx_id = 1`, which is not greater than the transaction id
5 present in the log. -/
theorem claim_c6_counterexample :
    (recover_collection "users" [(16, c6Ins)]).2 = 1 ∧
    (16, c6Ins) ∈ [(16, c6Ins)] ∧
    c6Ins.header.transaction_id = 5 ∧
    ¬(c6Ins.header.transaction_id < (recover_collection "users" [(16, c6Ins)]).2) := by
  decide

/-- C5: evaluating the iterator on the torn file.  The claim (and the spec,
three times over) says the truncated tail is treated as a clean end of file;
the code instead yields the complete entry and then an *error* for the torn
tail (`WalEntry::from_bytes` fails and `WalIterator::next` returns
`Some(Err(..))`, which `recover_collection` propagates), so iteration does
not end cleanly. -/
theorem claim_c5 :
    walIterate c5TornFile =
      [.ok (16, c5Entry1), .error "Invalid WAL entry header: too short"] ∧
    c5Entry1.to_bytes.length = 41 ∧
    (c5Entry2.to_bytes.take 10).length = 10 := by
  decide

/-! ## Claim C10: the ASCII filter of the persisted-block id scan -/

theorem validIdByte_high (b : Nat) (hb : 128 ≤ b) : validIdByte b = false := by
  simp [validIdByte]
  omega

/-- Every id emitted by the raw-block extraction loop passed the ASCII byte
filter. -/
theorem extractLoop_valid (d : List Nat) :
    ∀ (fuel offset : Nat) (i : List Nat),
      i ∈ BlockManager.extractLoop d fuel offset → i.all validIdByte = true := by
  intro fuel
  induction fuel with
  | zero => intro offset i h; simp [BlockManager.extractLoop] at h
  | succ fuel ih =>
    intro offset i h
    rw [BlockManager.extractLoop] at h
    by_cases h1 : offset < d.length - 6
    case neg => rw [if_neg h1] at h; simp at h
    rw [if_pos h1] at h
    by_cases h2 : offset + 2 > d.length
    case pos => rw [if_pos h2] at h; simp at h
    rw [if_neg h2] at h
    by_cases h3 : fromLE (extract d offset 2) = 0 ∨
        offset + 2 + fromLE (extract d offset 2) > d.length
    case pos => rw [if_pos h3] at h; exact ih _ i h
    rw [if_neg h3] at h
    by_cases h4 : extract d (offset + 2) (fromLE (extract d offset 2)) ≠ [] ∧
        isTombstoneId (extract d (offset + 2) (fromLE (extract d offset 2))) = false
    case neg => rw [if_neg h4] at h; exact ih _ i h
    rw [if_pos h4] at h
    by_cases h5 : (extract d (offset + 2) (fromLE (extract d offset 2))).all validIdByte = true
    case neg => rw [if_neg h5] at h; exact ih _ i h
    rw [if_pos h5] at h
    rcases List.mem_cons.mp h with rfl | h6
    · exact h5
    · by_cases h7 : offset + 2 + fromLE (extract d offset 2) + 4 ≤ d.length
      · rw [if_pos h7] at h6; exact ih _ i h6
      · rw [if_neg h7] at h6; exact ih _ i h6

theorem extract_ids_valid (bd : List Nat) (i : List Nat)
    (h : i ∈ BlockManager.extract_ids_from_raw_block bd) : i.all validIdByte = true := by
  rw [BlockManager.extract_ids_from_raw_block] at h
  by_cases h1 : bd.length < BlockHeader.SIZE
  · rw [if_pos h1] at h; simp at h
  · rw [if_neg h1] at h; exact extractLoop_valid bd _ _ i h

/-- Every id emitted by the magic-scan over the raw block file passed the
ASCII byte filter. -/
theorem magicLoop_valid (content : List Nat) :
    ∀ (fuel pos : Nat) (i : List Nat),
      i ∈ BlockManager.magicLoop content fuel pos → i.all validIdByte = true := by
  intro fuel
  induction fuel with
  | zero => intro pos i h; simp [BlockManager.magicLoop] at h
  | succ fuel ih =>
    intro pos i h
    rw [BlockManager.magicLoop] at h
    by_cases h1 : pos < content.length - 4
    case neg => rw [if_neg h1] at h; simp at h
    rw [if_pos h1] at h
    by_cases h2 : extract content pos 4 = BlockHeader.MAGIC
    · rw [if_pos h2] at h
      rcases List.mem_append.mp h with h3 | h3
      · exact extract_ids_valid _ i h3
      · exact ih _ i h3
    · rw [if_neg h2] at h
      exact ih _ i h

/-- C10: `scan_document_ids` filters the ids recovered from the persisted
block file through the ASCII byte filter, but not the ids of the active
block.  (1) Every id produced by the raw-file magic scan passes the filter;
(2) every id in the scan result either comes from the active block's scan or
passes the filter; (3) an id containing any byte ≥ 0x80 fails the filter —
so a flushed id with such a byte can never be emitted by the file scan;
(4) yet an id with byte 0x80+ sitting in the active block *is* emitted. -/
theorem claim_c10 :
    (∀ (content : List Nat) (fuel pos : Nat) (i : List Nat),
        i ∈ BlockManager.magicLoop content fuel pos → i.all validIdByte = true) ∧
    (∀ (st : BMState) (i : List Nat), i ∈ BlockManager.scan_document_ids st →
        (∃ block, st.active_block = some block ∧
          i ∈ BlockManager.scan_block_for_document_ids block) ∨
        i.all validIdByte = true) ∧
    (∀ (i : List Nat) (b : Nat), b ∈ i → 128 ≤ b → i.all validIdByte = false) ∧
    BlockManager.scan_document_ids c10State = [[104, 105, 128]] := by
  refine ⟨magicLoop_valid, ?_, ?_, by decide⟩
  · intro st i h
    rcases ha : st.active_block with _ | block
    · rw [BlockManager.scan_document_ids] at h
      rw [ha] at h
      by_cases h1 : st.fileExists = false
      · rw [if_pos h1] at h; simp at h
      · rw [if_neg h1] at h
        by_cases h2 : st.fileContent = []
        · rw [if_pos h2] at h; simp at h
        · rw [if_neg h2] at h
          simp only [List.nil_append] at h
          exact Or.inr (magicLoop_valid _ _ _ i h)
    · rw [BlockManager.scan_document_ids] at h
      rw [ha] at h
      by_cases h1 : st.fileExists = false
      · rw [if_pos h1] at h
        exact Or.inl ⟨block, rfl, h⟩
      · rw [if_neg h1] at h
        by_cases h2 : st.fileContent = []
        · rw [if_pos h2] at h
          exact Or.inl ⟨block, rfl, h⟩
        · rw [if_neg h2] at h
          rcases List.mem_append.mp h with h3 | h3
          · exact Or.inl ⟨block, rfl, h3⟩
          · exact Or.inr (magicLoop_valid _ _ _ i h3)
  · intro i b hb h128
    by_contra hcon
    have hall : i.all validIdByte = true := by
      revert hcon
      cases i.all validIdByte <;> simp
    have := List.all_eq_true.mp hall b hb
    rw [validIdByte_high b h128] at this
    exact Bool.false_ne_true this

theorem claim_c10_witness : ([104, 105, 128] : List Nat).all validIdByte = false :=
  claim_c10.2.2.1 [104, 105, 128] 128 (by decide) (by decide)

/-! ## Claim C2: tombstone-based delete -/

/-- Scanning `pre ++ q` from an offset past `pre` is scanning `q`. -/
theorem searchLoop_shift (pre q docId : List Nat) :
    ∀ (fuel off : Nat),
      BlockManager.searchLoop (pre ++ q) docId fuel (pre.length + off) =
        BlockManager.searchLoop q docId fuel off := by
  intro fuel
  induction fuel with
  | zero => intro off; rfl
  | succ fuel ih =>
    intro off
    rw [BlockManager.searchLoop, BlockManager.searchLoop]
    simp only [List.length_append, Nat.add_assoc, Nat.add_lt_add_iff_left, gt_iff_lt,
      extract_shift, ih]

/-- Scanning a payload that starts with one well-formed entry either hits
that entry or moves past it. -/
theorem searchLoop_append_entry (i d rest docId : List Nat)
    (hi : i.length < 2 ^ 16) (hd : d.length < 2 ^ 32) (fuel : Nat) :
    BlockManager.searchLoop (encEntry i d ++ rest) docId (fuel + 1) 0 =
      if i = docId then some d else BlockManager.searchLoop rest docId fuel 0 := by
  have hi' : i.length < 256 ^ 2 := lt_of_lt_of_eq hi (by norm_num)
  have hd' : d.length < 256 ^ 4 := lt_of_lt_of_eq hd (by norm_num)
  have e1 : encEntry i d ++ rest = toLE 2 i.length ++ (i ++ (toLE 4 d.length ++ (d ++ rest))) := by
    simp [encEntry, DocumentEntry.to_bytes, List.append_assoc]
  have hlen : (encEntry i d ++ rest).length = 6 + i.length + d.length + rest.length := by
    simp [List.length_append, encEntry_length]
    omega
  have hx0 : extract (encEntry i d ++ rest) 0 2 = toLE 2 i.length := by
    rw [e1]; exact extract_at ([]) (toLE 2 i.length) _ rfl (toLE_length 2 _)
  have hid : fromLE (extract (encEntry i d ++ rest) 0 2) = i.length := by
    rw [hx0]; exact fromLE_toLE_of_lt hi'
  have hx2 : extract (encEntry i d ++ rest) 2 i.length = i := by
    rw [e1]; exact extract_at (toLE 2 i.length) i _ (toLE_length 2 _) rfl
  have e2 : encEntry i d ++ rest = (toLE 2 i.length ++ i) ++ (toLE 4 d.length ++ (d ++ rest)) := by
    simp [encEntry, DocumentEntry.to_bytes, List.append_assoc]
  have hx4 : extract (encEntry i d ++ rest) (2 + i.length) 4 = toLE 4 d.length := by
    rw [e2]
    exact extract_at (toLE 2 i.length ++ i) (toLE 4 d.length) _ (by simp) (toLE_length 4 _)
  have e3 : encEntry i d ++ rest = ((toLE 2 i.length ++ i) ++ toLE 4 d.length) ++ (d ++ rest) := by
    simp [encEntry, DocumentEntry.to_bytes, List.append_assoc]
  have hx6 : extract (encEntry i d ++ rest) (2 + i.length + 4) d.length = d := by
    rw [e3]
    exact extract_at ((toLE 2 i.length ++ i) ++ toLE 4 d.length) d rest (by simp; omega) rfl
  rw [BlockManager.searchLoop]
  simp only [Nat.zero_add]
  rw [hid, hx2, hx4, fromLE_toLE_of_lt hd', hx6]
  rw [if_pos (show 0 < (encEntry i d ++ rest).length by omega)]
  rw [if_neg (show ¬(2 > (encEntry i d ++ rest).length) by omega)]
  rw [if_neg (show ¬(2 + i.length > (encEntry i d ++ rest).length) by omega)]
  by_cases hEq : i = docId
  · rw [if_pos hEq, if_pos hEq]
    rw [if_neg (show ¬(2 + i.length + 4 > (encEntry i d ++ rest).length) by omega)]
    rw [if_neg (show ¬(2 + i.length + 4 + d.length > (encEntry i d ++ rest).length) by omega)]
  · rw [if_neg hEq, if_neg hEq]
    rw [if_neg (show ¬(2 + i.length + 4 > (encEntry i d ++ rest).length) by omega)]
    rw [show 2 + i.length + 4 + d.length = (encEntry i d).length + 0 from by
      rw [encEntry_length]; omega]
    exact searchLoop_shift (encEntry i d) rest docId fuel 0

/-- Appending a fresh entry to a well-formed payload makes it findable: the
scan walks the existing entries (stopping early only on an older entry with
the same id) and otherwise reaches the appended one. -/
theorem searchLoop_find_appended (tid td : List Nat)
    (hti : tid.length < 2 ^ 16) (htd : td.length < 2 ^ 32) :
    ∀ (p : List Nat), ValidPayload p → ∀ (fuel : Nat),
      (p ++ encEntry tid td).length < fuel →
      (BlockManager.searchLoop (p ++ encEntry tid td) tid fuel 0).isSome = true := by
  intro p hp
  induction hp with
  | nil =>
    intro fuel hfuel
    simp only [List.nil_append] at hfuel ⊢
    have h6 : 6 ≤ (encEntry tid td).length := by rw [encEntry_length]; omega
    obtain ⟨f, rfl⟩ : ∃ f, fuel = f + 1 := ⟨fuel - 1, by omega⟩
    rw [show encEntry tid td = encEntry tid td ++ [] from (List.append_nil _).symm]
    rw [searchLoop_append_entry tid td [] tid hti htd f]
    simp
  | cons id data rest hid hdata hrest ih =>
    intro fuel hfuel
    rw [List.append_assoc]
    have h6 : 6 ≤ (encEntry id data).length := by rw [encEntry_length]; omega
    have hlen2 : (rest ++ encEntry tid td).length < fuel - 1 := by
      simp only [List.length_append] at hfuel ⊢
      omega
    obtain ⟨f, rfl⟩ : ∃ f, fuel = f + 1 := ⟨fuel - 1, by omega⟩
    rw [searchLoop_append_entry id data (rest ++ encEntry tid td) tid hid hdata f]
    by_cases hEq : id = tid
    · rw [if_pos hEq]; rfl
    · rw [if_neg hEq]
      exact ih f (by omega)

/-- `search_block_for_document` succeeds on a block whose payload is a valid
payload followed by an entry carrying the searched id. -/
theorem search_block_appended (block : Block) (p tid td : List Nat)
    (hb : block.data = p ++ encEntry tid td) (hp : ValidPayload p)
    (hti : tid.length < 2 ^ 16) (htd : td.length < 2 ^ 32) :
    (BlockManager.search_block_for_document block tid).isSome = true := by
  rw [BlockManager.search_block_for_document, hb]
  have h6 : 6 ≤ (encEntry tid td).length := by rw [encEntry_length]; omega
  rw [if_neg (by
    intro hcon
    have := congrArg List.length hcon
    simp only [List.length_append, List.length_nil] at this
    omega)]
  exact searchLoop_find_appended tid td hti htd p hp _ (by simp only [List.length_append]; omega)

/-- A hit in the active block short-circuits `find_document`. -/
theorem find_document_isSome_of_active (st : BMState) (block : Block) (docId : List Nat)
    (hfile : st.fileExists = true) (hactive : st.active_block = some block)
    (hsearch : (BlockManager.search_block_for_document block docId).isSome = true) :
    (BlockManager.find_document st docId).isSome = true := by
  rcases hs : BlockManager.search_block_for_document block docId with _ | v
  · rw [hs] at hsearch; simp at hsearch
  · simp [BlockManager.find_document, hfile, hactive, hs]

/-- A `find_document` hit requires the block file to exist. -/
theorem find_document_fileExists (st : BMState) (docId v : List Nat)
    (h : BlockManager.find_document st docId = some v) : st.fileExists = true := by
  by_contra hcon
  have hfe : st.fileExists = false := by
    revert hcon; cases st.fileExists <;> simp
  rw [BlockManager.find_document, if_pos hfe] at h
  exact Option.noConfusion h

/-- A present tombstone forces `get` to report absence. -/
theorem get_none_of_tombstone (st : BMState) (id : List Nat)
    (h : (BlockManager.find_document st (Collection.tombstoneId id)).isSome = true) :
    Collection.get st id = none := by
  rw [Collection.get]
  rcases h1 : BlockManager.find_document st id with _ | data
  · rfl
  · rcases h2 : BlockManager.find_document st (Collection.tombstoneId id) with _ | w
    · rw [h2] at h; simp at h
    · rfl

/-- A visible document pins down the branch `get` took. -/
theorem get_some_find (st : BMState) (id v : List Nat)
    (h : Collection.get st id = some v) : BlockManager.find_document st id = some v := by
  rw [Collection.get] at h
  rcases h1 : BlockManager.find_document st id with _ | data
  · rw [h1] at h; exact Option.noConfusion h
  · rw [h1] at h
    rcases h2 : BlockManager.find_document st (Collection.tombstoneId id) with _ | w
    · rw [h2] at h
      simp only [Option.some.injEq] at h
      rw [h]
    · rw [h2] at h; exact Option.noConfusion h

/-- C2 (amended): for a document that is currently *visible* (`get` returns
its value — which requires `blocks.bin` to exist, since `find_document`
answers `None` for a missing file), and provided the tombstone insert stays
under the auto-flush threshold, two consecutive `delete` calls return `true`
then `false`, and `get` reports absence after either call (the second call
leaves the state unchanged).  The payload well-formedness hypothesis records
that active-block payloads are concatenations of wire entries, which is what
`add_document` produces. -/
theorem claim_c2 (st : BMState) (now now2 : Nat) (id v tombstone_data td2 : List Nat)
    (hget : Collection.get st id = some v)
    (hvp : ∀ block, st.active_block = some block → ValidPayload block.data)
    (hidlen : id.length + 2 < 2 ^ 16)
    (htdlen : tombstone_data.length < 2 ^ 32)
    (hnoflush : ∀ block, (BlockManager.ensure_active_block st now).active_block = some block →
      (block.add_document ⟨Collection.tombstoneId id, tombstone_data⟩).size <
        st.config.flush_threshold) :
    Collection.delete st now id tombstone_data =
        (true, BlockManager.insert st now (Collection.tombstoneId id) tombstone_data) ∧
    Collection.get (BlockManager.insert st now (Collection.tombstoneId id) tombstone_data) id =
        none ∧
    Collection.delete (BlockManager.insert st now (Collection.tombstoneId id) tombstone_data)
        now2 id td2 =
      (false, BlockManager.insert st now (Collection.tombstoneId id) tombstone_data) := by
  have hfind : BlockManager.find_document st id = some v := get_some_find st id v hget
  have hfe : st.fileExists = true := find_document_fileExists st id v hfind
  obtain ⟨block, hblock, hvpb⟩ :
      ∃ block, (BlockManager.ensure_active_block st now).active_block = some block ∧
        ValidPayload block.data := by
    rcases ha : st.active_block with _ | b
    · refine ⟨Block.new st.config.compression now, ?_, ValidPayload.nil⟩
      simp [BlockManager.ensure_active_block, ha]
    · refine ⟨b, ?_, hvp b ha⟩
      simp [BlockManager.ensure_active_block, ha]
  have hconfig : (BlockManager.ensure_active_block st now).config = st.config := by
    rw [BlockManager.ensure_active_block]; split_ifs <;> rfl
  have hfe1 : (BlockManager.ensure_active_block st now).fileExists = st.fileExists := by
    rw [BlockManager.ensure_active_block]; split_ifs <;> rfl
  have hlt := hnoflush block hblock
  have h1 : BlockManager.insert st now (Collection.tombstoneId id) tombstone_data =
      BlockManager.flush_if_needed
        { BlockManager.ensure_active_block st now with
          active_block :=
            some (block.add_document ⟨Collection.tombstoneId id, tombstone_data⟩) } now := by
    simp [BlockManager.insert, hblock]
  have h2 : BlockManager.flush_if_needed
      { BlockManager.ensure_active_block st now with
        active_block :=
          some (block.add_document ⟨Collection.tombstoneId id, tombstone_data⟩) } now =
      { BlockManager.ensure_active_block st now with
        active_block :=
          some (block.add_document ⟨Collection.tombstoneId id, tombstone_data⟩) } := by
    rw [BlockManager.flush_if_needed]
    dsimp only
    rw [hconfig]
    rw [if_neg (by omega)]
  have hs1 : BlockManager.insert st now (Collection.tombstoneId id) tombstone_data =
      { BlockManager.ensure_active_block st now with
        active_block :=
          some (block.add_document ⟨Collection.tombstoneId id, tombstone_data⟩) } :=
    h1.trans h2
  have hfe2 : ({ BlockManager.ensure_active_block st now with
      active_block :=
        some (block.add_document ⟨Collection.tombstoneId id, tombstone_data⟩) } : BMState).fileExists
      = true := by
    dsimp only
    rw [hfe1, hfe]
  have htlen : (Collection.tombstoneId id).length < 2 ^ 16 := by
    simp only [Collection.tombstoneId, List.length_cons, List.length_append, List.length_cons,
      List.length_nil]
    omega
  have hsearch :
      (BlockManager.search_block_for_document
        (block.add_document ⟨Collection.tombstoneId id, tombstone_data⟩)
        (Collection.tombstoneId id)).isSome = true :=
    search_block_appended _ block.data (Collection.tombstoneId id) tombstone_data rfl hvpb
      htlen htdlen
  have hfindt :
      (BlockManager.find_document
        { BlockManager.ensure_active_block st now with
          active_block :=
            some (block.add_document ⟨Collection.tombstoneId id, tombstone_data⟩) }
        (Collection.tombstoneId id)).isSome = true :=
    find_document_isSome_of_active _ _ _ hfe2 rfl hsearch
  have hget1 : Collection.get
      { BlockManager.ensure_active_block st now with
        active_block :=
          some (block.add_document ⟨Collection.tombstoneId id, tombstone_data⟩) } id = none :=
    get_none_of_tombstone _ id hfindt
  refine ⟨?_, ?_, ?_⟩
  · rw [Collection.delete, hget]
  · rw [hs1]; exact hget1
  · rw [hs1, Collection.delete, hget1]

theorem claim_c2_witness :
    Collection.delete c2WitState 1 [107] [120] =
        (true, BlockManager.insert c2WitState 1 (Collection.tombstoneId [107]) [120]) ∧
    Collection.get (BlockManager.insert c2WitState 1 (Collection.tombstoneId [107]) [120])
        [107] = none ∧
    Collection.delete (BlockManager.insert c2WitState 1 (Collection.tombstoneId [107]) [120])
        2 [107] [121] =
      (false, BlockManager.insert c2WitState 1 (Collection.tombstoneId [107]) [120]) :=
  claim_c2 c2WitState 1 2 [107] [118] [120] [121] (by decide)
    (fun block hb => by
      have hb' : some c1Block = some block := hb
      cases hb'
      exact ValidPayload.cons [107] [118] [] (by decide) (by decide) ValidPayload.nil)
    (by decide) (by decide)
    (fun block hb => by
      have hb' : some c1Block = some block := hb
      cases hb'
      decide)

/-- C2, counterexample.  The id `"k"` was just inserted (the active block
demonstrably holds it and its linear scan finds the value) and never deleted,
yet the *first* `delete` returns `false`, because `delete` consults `get`,
`get` consults `find_document`, and `find_document` returns `None` outright
while `blocks.bin` does not exist. -/
theorem claim_c2_counterexample :
    c2Inserted.active_block = some ((Block.new .Zstd 0).add_document ⟨[107], [118]⟩) ∧
    BlockManager.search_block_for_document
        ((Block.new .Zstd 0).add_document ⟨[107], [118]⟩) [107] = some [118] ∧
    Collection.delete c2Inserted 1 [107] [120] = (false, c2Inserted) ∧
    Collection.get c2Inserted [107] = none := by
  decide

end NebulaDB
